import Mathlib

/-!
Verification of the OCI object-storage bulk synchronizer (`Bulk_Sync.py`).

The development shallowly embeds the synchronizer's core: the per-object
state machine `process_object`, the retry loop over server-side copy
attempts, the destination-name computation shared by the existence probe
and the copy request, the state-file load/save routines, and the
coordinator's sequential fold over the enumerated object names together
with the final DONE/FAILED summary counts.

Remote calls (`head_object`, `copy_object`) are modelled by an
environment value recording, for one run on one object, what the
destination probe reports and whether each copy attempt succeeds.
The shared `state` dict is modelled as an association list updated at a
single point per outcome, mirroring the lock-protected writes; since each
worker touches only its own key, the sequential fold is faithful to the
thread-pool dispatch for the state- and count-level properties proved
here.
-/

namespace BulkSync

/-- Configuration constant `MAX_RETRIES = 5`. -/
def MAX_RETRIES : Nat := 5

/-- Configuration constant `STATE_FILE = "sync_state.json"`. -/
def STATE_FILE : String := "sync_state.json"

/-- Persisted per-object status: `"DONE"` or `"FAILED"`. -/
inductive Status where
  | done
  | failed
deriving DecidableEq, Repr

/-- One value of the `state` dict: `{"status": .., "retries": .., "error"?: ..}`. -/
structure SyncRecord where
  status : Status
  retries : Nat
  error : Option String
deriving DecidableEq, Repr

/-- What `object_in_destination` observes for one object in one run:
`head_object` succeeds (`found`), raises a 404 `ServiceError` (`notFound`),
or raises any other error (`err`). -/
inductive ProbeResult where
  | found
  | notFound
  | err (msg : String)
deriving DecidableEq, Repr

/-- Per-object, per-run behaviour of the remote calls: the probe outcome and,
for each copy attempt index, whether `copy_object_server_side` succeeds and
the text of the exception when it fails. -/
structure Env where
  probe : ProbeResult
  copyOk : Nat → Bool
  copyErrMsg : Nat → String

/-- Terminal per-run outcome of `process_object`, one constructor per
`return` statement. -/
inductive Outcome where
  | skippedDone
  | skippedExhausted
  | skippedExists
  | probeFailed (msg : String)
  | copied
  | failed (msg : String)
  | failedUnknown
deriving DecidableEq, Repr

/-- Observable effect of one `process_object` invocation: the terminal
outcome, the sequence of assignments `state[object_name] = ...` performed
(in order), the number of destination probes issued, and the number of copy
calls issued. -/
structure RunResult where
  outcome : Outcome
  writes : List SyncRecord
  probes : Nat
  copyCalls : Nat
deriving DecidableEq, Repr

/-- `obj_state.get("status")`: the dict `{}` (modelled `none`) has no status. -/
def recStatus (r : Option SyncRecord) : Option Status :=
  Option.map SyncRecord.status r

/-- `obj_state.get("retries", 0)`: defaults to 0 when the record is absent. -/
def recRetries (r : Option SyncRecord) : Nat :=
  Option.getD (Option.map SyncRecord.retries r) 0

/-- The `for attempt in range(maxRetries)` loop of `process_object`, entered
at `attempt` with `fuel` iterations remaining (`attempt + fuel = maxRetries`
at every call). On success it records `{"status": "DONE", "retries": attempt}`;
on the last attempt's failure it records `{"status": "FAILED", "retries":
old_retries + 1, "error": str(e)}`; exhausting the range without returning
yields the `FAILED-UNKNOWN` fall-through. -/
def copyFrom (env : Env) (prior : Option SyncRecord) (maxRetries : Nat) :
    Nat → Nat → RunResult
  | _, 0 => ⟨Outcome.failedUnknown, [], 0, 0⟩
  | attempt, fuel + 1 =>
    if env.copyOk attempt then
      ⟨Outcome.copied, [⟨Status.done, attempt, none⟩], 0, 1⟩
    else if attempt = maxRetries - 1 then
      ⟨Outcome.failed (env.copyErrMsg attempt),
        [⟨Status.failed, recRetries prior + 1, some (env.copyErrMsg attempt)⟩],
        0, 1⟩
    else
      let r := copyFrom env prior maxRetries (attempt + 1) fuel
      ⟨r.outcome, r.writes, r.probes, r.copyCalls + 1⟩

/-- The whole copy loop of `process_object`, from attempt 0. -/
def copyLoop (env : Env) (prior : Option SyncRecord) (maxRetries : Nat) :
    RunResult :=
  copyFrom env prior maxRetries 0 maxRetries

/-- `process_object(object_name)` for one object in one run, given the prior
stored record and the run's remote-call behaviour. -/
def process_object (env : Env) (maxRetries : Nat) (prior : Option SyncRecord) :
    RunResult :=
  if recStatus prior = some Status.done then
    ⟨Outcome.skippedDone, [], 0, 0⟩
  else if recStatus prior = some Status.failed ∧ maxRetries ≤ recRetries prior then
    ⟨Outcome.skippedExhausted, [], 0, 0⟩
  else
    match env.probe with
    | ProbeResult.found =>
      ⟨Outcome.skippedExists, [⟨Status.done, 0, none⟩], 1, 0⟩
    | ProbeResult.err e =>
      ⟨Outcome.probeFailed e,
        [⟨Status.failed, recRetries prior + 1, some e⟩], 1, 0⟩
    | ProbeResult.notFound =>
      let r := copyLoop env prior maxRetries
      ⟨r.outcome, r.writes, r.probes + 1, r.copyCalls⟩

/-- Python truthiness of the optional `DEST_PREFIX` string
(`None` and `""` are falsy). -/
def pyTruthy (dp : Option String) : Bool :=
  match dp with
  | none => false
  | some s => s ≠ ""

/-- Line 84: `dest_obj_name = (DEST_PREFIX or "") + object_name if DEST_PREFIX
else object_name`, as computed inside `object_in_destination`. -/
def probe_dest_obj_name (dp : Option String) (objectName : String) : String :=
  if pyTruthy dp then Option.getD dp "" ++ objectName else objectName

/-- Line 100: the same expression, as computed inside
`copy_object_server_side`. -/
def copy_dest_obj_name (dp : Option String) (objectName : String) : String :=
  if pyTruthy dp then Option.getD dp "" ++ objectName else objectName

/-- The spec's formula (§6): `destinationName = destinationPrefix + sourceName`
when a destination key-prefix is set, else the source name unchanged. -/
def spec_dest_name (dp : Option String) (objectName : String) : String :=
  match dp with
  | some p => p ++ objectName
  | none => objectName

/-- The in-memory `state` dict, as an association list with Python dict
update semantics (at most one entry per key when built from a dict). -/
abbrev SyncState := List (String × SyncRecord)

/-- Dict lookup `d.get(k)`. -/
def alistGet {β : Type} (s : List (String × β)) (k : String) : Option β :=
  match s with
  | [] => none
  | (k2, v) :: rest => if k2 = k then some v else alistGet rest k

/-- Dict assignment `d[k] = v`. -/
def alistSet {β : Type} (s : List (String × β)) (k : String) (v : β) :
    List (String × β) :=
  match s with
  | [] => [(k, v)]
  | (k2, v2) :: rest =>
    if k2 = k then (k2, v) :: rest else (k2, v2) :: alistSet rest k v

/-- Replay the assignments `state[name] = ...` made for one object. -/
def applyWrites (s : SyncState) (name : String) (ws : List SyncRecord) :
    SyncState :=
  List.foldl (fun acc r => alistSet acc name r) s ws

/-- Aggregate effect of one run of `main`'s dispatch over the enumerated
object names: final state, total probes issued, total copy calls issued. -/
structure CoordResult where
  state : SyncState
  probes : Nat
  copyCalls : Nat
deriving DecidableEq, Repr

/-- One run of the coordinator over the enumerated names. Each worker reads
and writes only its own key under the lock, so the arbitrary completion
order of the thread pool is equivalent, for state and counts, to this
sequential fold. The per-object remote behaviour is given by `env`. -/
def runAll (env : String → Env) (m : Nat) (objs : List String)
    (s : SyncState) : CoordResult :=
  match objs with
  | [] => ⟨s, 0, 0⟩
  | n :: rest =>
    let res := process_object (env n) m (alistGet s n)
    let tail := runAll env m rest (applyWrites s n res.writes)
    ⟨tail.state, res.probes + tail.probes, res.copyCalls + tail.copyCalls⟩

/-- `sum(1 for s in state.values() if s["status"] == "DONE")`. -/
def doneCount (s : SyncState) : Nat :=
  (List.filter (fun p => p.2.status == Status.done) s).length

/-- `sum(1 for s in state.values() if s["status"] == "FAILED")`. -/
def failedCount (s : SyncState) : Nat :=
  (List.filter (fun p => p.2.status == Status.failed) s).length

/-- Effect of a run's writes on a single object's stored record (the last
assignment wins). -/
def applyRec (r : Option SyncRecord) (ws : List SyncRecord) :
    Option SyncRecord :=
  match ws.getLast? with
  | some w => some w
  | none => r

/-- One object followed across successive runs: each run starts from the
record the previous run persisted; the second component accumulates the
copy calls issued for the object across the runs. -/
def runTrace (m : Nat) (envs : List Env) (r : Option SyncRecord) :
    Option SyncRecord × Nat :=
  match envs with
  | [] => (r, 0)
  | e :: rest =>
    let res := process_object e m r
    let next := runTrace m rest (applyRec r res.writes)
    (next.1, res.copyCalls + next.2)

/-- A run in which the object never succeeds: the destination never reports
the object present, and every copy attempt in range fails. -/
def neverSucceeds (m : Nat) (e : Env) : Prop :=
  ¬e.probe = ProbeResult.found ∧ ∀ i, i < m → e.copyOk i = false

instance (m : Nat) (e : Env) : Decidable (neverSucceeds m e) :=
  inferInstanceAs (Decidable
    (¬e.probe = ProbeResult.found ∧ ∀ i, i < m → e.copyOk i = false))

/-- A stored record that makes `process_object` take one of its two skip
branches: DONE, or FAILED with the retry budget exhausted. -/
def skipRecord (m : Nat) (r : Option SyncRecord) : Prop :=
  recStatus r = some Status.done ∨
    (recStatus r = some Status.failed ∧ m ≤ recRetries r)

instance (m : Nat) (r : Option SyncRecord) : Decidable (skipRecord m r) :=
  inferInstanceAs (Decidable
    (recStatus r = some Status.done ∨
      (recStatus r = some Status.failed ∧ m ≤ recRetries r)))

/-- Environment in which the destination already holds the object. -/
def envFound : Env :=
  ⟨ProbeResult.found, fun _ => false, fun _ => ""⟩

/-- Environment in which the object is absent and every copy attempt fails. -/
def envAlwaysFails : Env :=
  ⟨ProbeResult.notFound, fun _ => false, fun _ => "copy failed"⟩

/-- Environment in which the destination probe fails with a non-404 error. -/
def envProbeErr : Env :=
  ⟨ProbeResult.err "timeout", fun _ => false, fun _ => ""⟩

/-- Environment in which the object is absent, attempts 0 and 1 fail, and
attempt 2 succeeds. -/
def envThirdTry : Env :=
  ⟨ProbeResult.notFound, fun i => i == 2, fun _ => "copy err"⟩

/-- A world where every object's copy always fails and nothing ever lands in
the destination: probing and copying behave identically in every run. -/
def envBadWorld : String → Env := fun _ => envAlwaysFails

/-- A world where the destination already holds every enumerated object. -/
def envDestHas : String → Env := fun _ => envFound

/-- A prior-run state file holding records for objects that are no longer in
the source enumeration. -/
def staleLoadedState : SyncState :=
  [("old-done", ⟨Status.done, 0, none⟩),
   ("old-failed", ⟨Status.failed, 5, some "e"⟩)]

/-- A state file in which every object has reached a permanent record:
one DONE, one FAILED with the retry budget exhausted. -/
def settledState : SyncState :=
  [("a", ⟨Status.done, 0, none⟩),
   ("b", ⟨Status.failed, 5, some "e"⟩)]

/-- One state-file mutation step: `open(path, "w")` + write, or `os.rename`. -/
inductive FsOp where
  | write (path : String) (content : String)
  | rename (src : String) (dst : String)
deriving DecidableEq, Repr

/-- The local filesystem, as a mapping from path to file contents. -/
abbrev Fs := List (String × String)

/-- Remove a path (the source of a rename). -/
def fsDel (fs : Fs) (p : String) : Fs :=
  List.filter (fun q => !(q.1 == p)) fs

/-- Apply one filesystem operation. `os.rename` atomically moves the source
contents over the destination path. -/
def applyOp (fs : Fs) : FsOp → Fs
  | FsOp.write p c => alistSet fs p c
  | FsOp.rename src dst =>
    match alistGet fs src with
    | some c => alistSet (fsDel fs src) dst c
    | none => fs

/-- Apply a sequence of filesystem operations in order. -/
def applyOps (fs : Fs) (ops : List FsOp) : Fs :=
  List.foldl applyOp fs ops

/-- `save_state(state)`: write the full serialization to
`STATE_FILE + ".tmp"`, then `os.rename` the temporary path over
`STATE_FILE`. The serialized text (`json.dump`'s output) is a parameter. -/
def save_state_ops (serialized : String) : List FsOp :=
  [FsOp.write (STATE_FILE ++ ".tmp") serialized,
   FsOp.rename (STATE_FILE ++ ".tmp") STATE_FILE]

/-- Whether an operation mutates the file at path `p`. -/
def touches (op : FsOp) (p : String) : Bool :=
  match op with
  | FsOp.write q _ => q == p
  | FsOp.rename src dst => src == p || dst == p

/-- The directory part of a path: everything up to the last slash (empty for
a bare relative filename). -/
def dirOf (p : String) : String :=
  String.mk
    (List.reverse (List.dropWhile (fun c => !(c == '/')) (List.reverse p.data)))

/-- `load_state()`: `{}` when `STATE_FILE` does not exist, the parsed mapping
when `json.load` succeeds, and a raised parse error otherwise. The JSON
decoder (`json.load`) is external and passed as a parameter. -/
def load_state (decode : String → Option SyncState) (fs : Fs) :
    Except String SyncState :=
  match alistGet fs STATE_FILE with
  | none => Except.ok []
  | some c =>
    match decode c with
    | some mp => Except.ok mp
    | none => Except.error "ParseError"

/-- A decoder that rejects every string (models a corrupt state file). -/
def decodeNone : String → Option SyncState := fun _ => none

/-- A decoder that accepts one fixed serialized mapping. -/
def decodeOneRecord : String → Option SyncState := fun s =>
  if s = "serialized" then some [("a", ⟨Status.done, 0, none⟩)] else none

end BulkSync

namespace BulkSync

/-- The copy loop never issues a probe. -/
theorem copyFrom_probes_eq_zero (env : Env) (prior : Option SyncRecord)
    (m : Nat) : ∀ fuel attempt, (copyFrom env prior m attempt fuel).probes = 0 := by
  intro fuel
  induction fuel with
  | zero => intro attempt; rfl
  | succ f ih =>
    intro attempt
    simp only [copyFrom]
    split
    · rfl
    · split
      · rfl
      · exact ih (attempt + 1)

/-- Each iteration of the copy loop issues exactly one copy call, so the
count is bounded by the remaining fuel. -/
theorem copyFrom_copyCalls_le (env : Env) (prior : Option SyncRecord)
    (m : Nat) : ∀ fuel attempt,
    (copyFrom env prior m attempt fuel).copyCalls ≤ fuel := by
  intro fuel
  induction fuel with
  | zero => intro attempt; exact Nat.le_refl 0
  | succ f ih =>
    intro attempt
    simp only [copyFrom]
    split
    · exact Nat.succ_le_succ (Nat.zero_le f)
    · split
      · exact Nat.succ_le_succ (Nat.zero_le f)
      · exact Nat.succ_le_succ (ih (attempt + 1))

/-- A non-empty copy loop issues at least one copy call. -/
theorem copyFrom_copyCalls_pos (env : Env) (prior : Option SyncRecord)
    (m : Nat) : ∀ fuel attempt, 0 < fuel →
    1 ≤ (copyFrom env prior m attempt fuel).copyCalls := by
  intro fuel
  cases fuel with
  | zero => intro attempt h; omega
  | succ f =>
    intro attempt _
    simp only [copyFrom]
    split
    · exact Nat.le_refl 1
    · split
      · exact Nat.le_refl 1
      · exact Nat.succ_le_succ (Nat.zero_le _)

/-- A non-empty copy loop performs exactly one state write (entered with the
range invariant `attempt + fuel = maxRetries`). -/
theorem copyFrom_writes_length (env : Env) (prior : Option SyncRecord)
    (m : Nat) : ∀ fuel attempt, attempt + fuel = m → 0 < fuel →
    (copyFrom env prior m attempt fuel).writes.length = 1 := by
  intro fuel
  induction fuel with
  | zero => intro attempt h h0; omega
  | succ f ih =>
    intro attempt h _
    simp only [copyFrom]
    split
    · rfl
    · by_cases hlast : attempt = m - 1
      · simp [hlast]
      · have hf : 0 < f := by omega
        simp only [if_neg hlast]
        exact ih (attempt + 1) (by omega) hf

/-- If every attempt in range fails, the copy loop runs to the last attempt,
records FAILED with the prior retries incremented and the last error, and
issues one copy call per remaining iteration. -/
theorem copyFrom_all_fail (env : Env) (prior : Option SyncRecord) (m : Nat)
    (hfail : ∀ i, i < m → env.copyOk i = false) :
    ∀ fuel attempt, attempt + fuel = m → 0 < fuel →
      copyFrom env prior m attempt fuel =
        ⟨Outcome.failed (env.copyErrMsg (m - 1)),
          [⟨Status.failed, recRetries prior + 1, some (env.copyErrMsg (m - 1))⟩],
          0, fuel⟩ := by
  intro fuel
  induction fuel with
  | zero => intro attempt h h0; omega
  | succ f ih =>
    intro attempt h _
    have hok : env.copyOk attempt = false := hfail attempt (by omega)
    by_cases hlast : attempt = m - 1
    · have hf : f = 0 := by omega
      subst hf
      subst hlast
      simp [copyFrom, hok]
    · have hf : 0 < f := by omega
      have hrec := ih (attempt + 1) (by omega) hf
      simp [copyFrom, hok, hlast, hrec]

/-- If attempts before `a` fail and attempt `a` succeeds, the copy loop stops
at `a`, records DONE with `retries = a`, and issues `a - attempt + 1` copy
calls from position `attempt`. -/
theorem copyFrom_first_success (env : Env) (prior : Option SyncRecord)
    (m a : Nat) (ha : a < m) (hok : env.copyOk a = true)
    (hbefore : ∀ i, i < a → env.copyOk i = false) :
    ∀ fuel attempt, attempt + fuel = m → attempt ≤ a →
      copyFrom env prior m attempt fuel =
        ⟨Outcome.copied, [⟨Status.done, a, none⟩], 0, a - attempt + 1⟩ := by
  intro fuel
  induction fuel with
  | zero => intro attempt h hle; omega
  | succ f ih =>
    intro attempt h hle
    by_cases heq : attempt = a
    · subst heq
      simp [copyFrom, hok]
    · have hlt : attempt < a := by omega
      have hfa : env.copyOk attempt = false := hbefore attempt hlt
      have hlast : ¬(attempt = m - 1) := by omega
      have hrec := ih (attempt + 1) (by omega) (by omega)
      simp only [copyFrom, hfa, Bool.false_eq_true, if_false, if_neg hlast, hrec]
      have : a - (attempt + 1) + 1 + 1 = a - attempt + 1 := by omega
      simp [this]

end BulkSync

namespace BulkSync

/-- Setting a key makes lookup of that key return the new value. -/
theorem alistGet_set_eq {β : Type} (s : List (String × β)) (k : String)
    (v : β) : alistGet (alistSet s k v) k = some v := by
  induction s with
  | nil => simp [alistGet, alistSet]
  | cons hd t ih =>
    obtain ⟨k2, v2⟩ := hd
    by_cases hk : k2 = k
    · simp [alistGet, alistSet, hk]
    · simp [alistGet, alistSet, hk, ih]

/-- Setting a key leaves lookup of every other key unchanged. -/
theorem alistGet_set_ne {β : Type} (s : List (String × β)) (k k2 : String)
    (v : β) (h : ¬k = k2) :
    alistGet (alistSet s k v) k2 = alistGet s k2 := by
  induction s with
  | nil => simp [alistGet, alistSet, h]
  | cons hd t ih =>
    obtain ⟨k3, v3⟩ := hd
    by_cases hk : k3 = k
    · subst hk
      simp [alistGet, alistSet, h]
    · simp only [alistSet, if_neg hk]
      by_cases hk2 : k3 = k2
      · simp [alistGet, hk2]
      · simp [alistGet, hk2, ih]

/-- A worker's writes touch only its own key. -/
theorem alistGet_applyWrites_ne (ws : List SyncRecord) :
    ∀ (s : SyncState) (n k : String), ¬n = k →
      alistGet (applyWrites s n ws) k = alistGet s k := by
  induction ws with
  | nil => intro s n k _; rfl
  | cons w t ih =>
    intro s n k h
    show alistGet (applyWrites (alistSet s n w) n t) k = alistGet s k
    rw [ih (alistSet s n w) n k h, alistGet_set_ne s n k w h]

/-- A record loaded from a prior run whose key is not in the current source
enumeration is untouched by the whole run. -/
theorem runAll_stale_key (env : String → Env) (m : Nat) :
    ∀ (objs : List String) (s : SyncState) (n : String), ¬n ∈ objs →
      alistGet (runAll env m objs s).state n = alistGet s n := by
  intro objs
  induction objs with
  | nil => intro s n _; rfl
  | cons k rest ih =>
    intro s n h
    have hk : ¬k = n := fun he => h (by simp [he])
    have hrest : ¬n ∈ rest := fun he => h (by simp [he])
    show alistGet (runAll env m rest
      (applyWrites s k (process_object (env k) m (alistGet s k)).writes)).state
        n = alistGet s n
    rw [ih _ n hrest, alistGet_applyWrites_ne _ _ k n hk]

/-- A skip-triggering record produces no write, no probe and no copy call. -/
theorem process_object_skip_effects (e : Env) (m : Nat)
    (r : Option SyncRecord) (h : skipRecord m r) :
    (process_object e m r).writes = [] ∧
    (process_object e m r).probes = 0 ∧
    (process_object e m r).copyCalls = 0 := by
  rcases h with h | h
  · simp [process_object, h]
  · by_cases h1 : recStatus r = some Status.done
    · simp [process_object, h1]
    · simp [process_object, h1, h]

/-- The retries counter never skips: a record that is not yet skip-worthy
has strictly fewer than `m` retries (given `0 < m`). -/
theorem recRetries_lt_of_not_exhausted (m : Nat) (r : Option SyncRecord)
    (hm : 0 < m) (hst : ¬recStatus r = some Status.done)
    (h2 : ¬(recStatus r = some Status.failed ∧ m ≤ recRetries r)) :
    recRetries r < m := by
  cases r with
  | none => simpa [recRetries] using hm
  | some rec =>
    cases hs : rec.status with
    | done => exact absurd (by simp [recStatus, hs]) hst
    | failed =>
      have hnle : ¬m ≤ recRetries (some rec) :=
        fun hle => h2 ⟨by simp [recStatus, hs], hle⟩
      omega

/-- One run of an object that never succeeds: the stored record stays
non-DONE, its retries stay bounded by `m`, and the run's copy calls are
paid for by the retries increment (`calls + m * retries ≤ m * new_retries`). -/
theorem never_succeeds_step (e : Env) (m : Nat) (r : Option SyncRecord)
    (hm : 0 < m) (hns : neverSucceeds m e)
    (hst : ¬recStatus r = some Status.done) (hret : recRetries r ≤ m) :
    ¬recStatus (applyRec r (process_object e m r).writes) = some Status.done ∧
    recRetries (applyRec r (process_object e m r).writes) ≤ m ∧
    (process_object e m r).copyCalls + m * recRetries r ≤
      m * recRetries (applyRec r (process_object e m r).writes) := by
  by_cases h2 : recStatus r = some Status.failed ∧ m ≤ recRetries r
  · have hp : process_object e m r = ⟨Outcome.skippedExhausted, [], 0, 0⟩ := by
      simp [process_object, hst, h2]
    rw [hp]
    refine ⟨?_, ?_, ?_⟩
    · show ¬recStatus r = some Status.done
      exact hst
    · show recRetries r ≤ m
      exact hret
    · show 0 + m * recRetries r ≤ m * recRetries r
      simp
  · have hlt : recRetries r < m := recRetries_lt_of_not_exhausted m r hm hst h2
    cases hp : e.probe with
    | found => exact absurd hp hns.1
    | err msg =>
      have hpr : process_object e m r =
          ⟨Outcome.probeFailed msg,
            [⟨Status.failed, recRetries r + 1, some msg⟩], 1, 0⟩ := by
        simp [process_object, hst, h2, hp]
      rw [hpr]
      refine ⟨?_, ?_, ?_⟩
      · show ¬(some Status.failed = some Status.done)
        simp
      · show recRetries r + 1 ≤ m
        omega
      · show 0 + m * recRetries r ≤ m * (recRetries r + 1)
        simpa using Nat.mul_le_mul (Nat.le_refl m) (Nat.le_succ (recRetries r))
    | notFound =>
      have hcl := copyFrom_all_fail e r m hns.2 m 0 (by omega) hm
      have hpr : process_object e m r =
          ⟨Outcome.failed (e.copyErrMsg (m - 1)),
            [⟨Status.failed, recRetries r + 1, some (e.copyErrMsg (m - 1))⟩],
            1, m⟩ := by
        simp [process_object, hst, h2, hp, copyLoop, hcl]
      rw [hpr]
      refine ⟨?_, ?_, ?_⟩
      · show ¬(some Status.failed = some Status.done)
        simp
      · show recRetries r + 1 ≤ m
        omega
      · show m + m * recRetries r ≤ m * (recRetries r + 1)
        have hms : m * (recRetries r + 1) = m * recRetries r + m :=
          Nat.mul_succ m (recRetries r)
        omega

/-- Cumulative copy calls for one never-succeeding object, across any
sequence of runs, are bounded by `m * m` minus what the starting retries
already paid for. -/
theorem runTrace_calls_bound (m : Nat) (hm : 0 < m) :
    ∀ (envs : List Env), (∀ e, e ∈ envs → neverSucceeds m e) →
      ∀ r, ¬recStatus r = some Status.done → recRetries r ≤ m →
        (runTrace m envs r).2 + m * recRetries r ≤ m * m := by
  intro envs
  induction envs with
  | nil =>
    intro _ r _ hret
    simpa [runTrace] using Nat.mul_le_mul (Nat.le_refl m) hret
  | cons e rest ih =>
    intro h r hst hret
    obtain ⟨ha, hb, hc⟩ := never_succeeds_step e m r hm (h e (by simp)) hst hret
    have ht := ih (fun x hx => h x (by simp [hx]))
      (applyRec r (process_object e m r).writes) ha hb
    simp only [runTrace]
    generalize hA : (process_object e m r).copyCalls = A at hc ⊢
    generalize hB : (runTrace m rest
      (applyRec r (process_object e m r).writes)).2 = B at ht ⊢
    generalize hX : m * recRetries r = X at hc ⊢
    generalize hY :
      m * recRetries (applyRec r (process_object e m r).writes) = Y at hc ht
    generalize hZ : m * m = Z at ht ⊢
    omega

end BulkSync

namespace BulkSync

/-- Claim C1: for an object that is not skipped, a "not found" probe always
proceeds to the copy loop (the run's outcome, writes and copy calls are
exactly those of the copy loop, and at least one copy call is issued when
the retry budget is positive); a probe failing with any other error never
reaches the copy loop (zero copy calls) and records a FAILED SyncRecord
with retries incremented over the prior stored value and the error
description, returning the probe-failure outcome. -/
theorem probe_not_found_vs_error (env : Env) (m : Nat)
    (prior : Option SyncRecord)
    (hdone : ¬recStatus prior = some Status.done)
    (hexh : ¬(recStatus prior = some Status.failed ∧ m ≤ recRetries prior)) :
    (env.probe = ProbeResult.notFound →
      process_object env m prior =
        ⟨(copyLoop env prior m).outcome, (copyLoop env prior m).writes,
          (copyLoop env prior m).probes + 1, (copyLoop env prior m).copyCalls⟩ ∧
      (0 < m → 1 ≤ (process_object env m prior).copyCalls)) ∧
    (∀ msg, env.probe = ProbeResult.err msg →
      process_object env m prior =
        ⟨Outcome.probeFailed msg,
          [⟨Status.failed, recRetries prior + 1, some msg⟩], 1, 0⟩) := by
  constructor
  · intro hp
    constructor
    · simp [process_object, hdone, hexh, hp]
    · intro hm
      simp only [process_object, if_neg hdone, if_neg hexh, hp]
      exact copyFrom_copyCalls_pos env prior m m 0 hm
  · intro msg hp
    simp [process_object, hdone, hexh, hp]

/-- Claim C1, witness: with a prior FAILED record of 2 retries and a probe
failing with "timeout", the run records FAILED with retries 3 and makes no
copy call; with no prior record and the object absent, the copy loop is
entered. -/
theorem probe_not_found_vs_error_witness :
    process_object envProbeErr MAX_RETRIES (some ⟨Status.failed, 2, some "x"⟩) =
      ⟨Outcome.probeFailed "timeout",
        [⟨Status.failed, 3, some "timeout"⟩], 1, 0⟩ ∧
    1 ≤ (process_object envAlwaysFails MAX_RETRIES none).copyCalls := by
  constructor
  · have h := (probe_not_found_vs_error envProbeErr MAX_RETRIES
      (some ⟨Status.failed, 2, some "x"⟩) (by decide) (by decide)).2 "timeout" rfl
    exact h
  · exact ((probe_not_found_vs_error envAlwaysFails MAX_RETRIES none
      (by decide) (by decide)).1 rfl).2 (by decide)

/-- Claim C3: an object whose prior record is DONE is skipped with no probe,
no copy call and no state write (so its record is unchanged); an object with
no prior record issues exactly one destination probe and, when the probe
reports the object absent, at least one copy attempt. -/
theorem done_skipped_absent_attempted (env : Env) (m : Nat)
    (prior : Option SyncRecord) :
    (recStatus prior = some Status.done →
      process_object env m prior = ⟨Outcome.skippedDone, [], 0, 0⟩) ∧
    (prior = none →
      (process_object env m prior).probes = 1 ∧
      (env.probe = ProbeResult.notFound → 0 < m →
        1 ≤ (process_object env m prior).copyCalls)) := by
  constructor
  · intro h
    simp [process_object, h]
  · intro h
    subst h
    constructor
    · cases hp : env.probe <;>
        simp [process_object, recStatus, recRetries, hp, copyLoop,
          copyFrom_probes_eq_zero]
    · intro hp hm
      simp [process_object, recStatus, recRetries, hp, copyLoop]
      exact copyFrom_copyCalls_pos env none m m 0 hm

/-- Claim C3, witness: a prior DONE record short-circuits even in a world
where every copy would fail, and a fresh object in that world is probed once
and its copy attempted. -/
theorem done_skipped_absent_attempted_witness :
    process_object envAlwaysFails MAX_RETRIES (some ⟨Status.done, 0, none⟩) =
      ⟨Outcome.skippedDone, [], 0, 0⟩ ∧
    (process_object envAlwaysFails MAX_RETRIES none).probes = 1 ∧
    1 ≤ (process_object envAlwaysFails MAX_RETRIES none).copyCalls := by
  refine ⟨?_, ?_, ?_⟩
  · exact (done_skipped_absent_attempted envAlwaysFails MAX_RETRIES
      (some ⟨Status.done, 0, none⟩)).1 rfl
  · exact ((done_skipped_absent_attempted envAlwaysFails MAX_RETRIES none).2
      rfl).1
  · exact ((done_skipped_absent_attempted envAlwaysFails MAX_RETRIES none).2
      rfl).2 rfl (by decide)

/-- Claim C5, counterexample: the claim says every terminal outcome,
including the skip outcomes, performs exactly one update of the object's
state entry; but an object whose prior record is DONE reaches its terminal
outcome with zero updates. -/
theorem one_write_counterexample :
    ¬((process_object envFound MAX_RETRIES
        (some ⟨Status.done, 0, none⟩)).writes.length = 1) := by
  decide

/-- Claim C5, amended: during one run's processing of an object at most one
update of the object's state entry occurs, and exactly one occurs whenever
the terminal outcome is not one of the two skip outcomes. -/
theorem at_most_one_write_per_run (env : Env) (m : Nat)
    (prior : Option SyncRecord) (hm : 0 < m) :
    (process_object env m prior).writes.length ≤ 1 ∧
    ((process_object env m prior).outcome ≠ Outcome.skippedDone →
      (process_object env m prior).outcome ≠ Outcome.skippedExhausted →
      (process_object env m prior).writes.length = 1) := by
  by_cases h1 : recStatus prior = some Status.done
  · refine ⟨?_, ?_⟩
    · simp [process_object, h1]
    · intro hc _
      exact absurd (by simp [process_object, h1]) hc
  · by_cases h2 : recStatus prior = some Status.failed ∧ m ≤ recRetries prior
    · refine ⟨?_, ?_⟩
      · simp [process_object, h1, h2]
      · intro _ hc
        exact absurd (by simp [process_object, h1, h2]) hc
    · cases hp : env.probe with
      | found =>
        refine ⟨?_, fun _ _ => ?_⟩ <;> simp [process_object, h1, h2, hp]
      | err msg =>
        refine ⟨?_, fun _ _ => ?_⟩ <;> simp [process_object, h1, h2, hp]
      | notFound =>
        have hw := copyFrom_writes_length env prior m m 0 (by omega) hm
        refine ⟨?_, fun _ _ => ?_⟩ <;>
          simp [process_object, h1, h2, hp, copyLoop, hw]

/-- Claim C5 (amended), witness: concrete instances of all-but-skip writing
exactly once. -/
theorem at_most_one_write_per_run_witness :
    (process_object envFound MAX_RETRIES none).writes.length ≤ 1 ∧
    (process_object envAlwaysFails MAX_RETRIES none).writes.length = 1 := by
  constructor
  · exact (at_most_one_write_per_run envFound MAX_RETRIES none (by decide)).1
  · exact (at_most_one_write_per_run envAlwaysFails MAX_RETRIES none
      (by decide)).2 (by decide) (by decide)

/-- Claim C8: within one run's copy loop at most `maxRetries` copy calls are
made; if the attempts before `a` fail and attempt `a` (counting from 0)
succeeds, the recorded SyncRecord is DONE with `retries = a`; if all
`maxRetries` attempts fail, the recorded SyncRecord is FAILED with retries
equal to the prior stored retries plus one and error set to the last
failure's description. -/
theorem copy_loop_semantics (env : Env) (m : Nat)
    (prior : Option SyncRecord) :
    (copyLoop env prior m).copyCalls ≤ m ∧
    (∀ a, a < m → (∀ i, i < a → env.copyOk i = false) →
      env.copyOk a = true →
      copyLoop env prior m =
        ⟨Outcome.copied, [⟨Status.done, a, none⟩], 0, a + 1⟩) ∧
    (0 < m → (∀ i, i < m → env.copyOk i = false) →
      copyLoop env prior m =
        ⟨Outcome.failed (env.copyErrMsg (m - 1)),
          [⟨Status.failed, recRetries prior + 1,
            some (env.copyErrMsg (m - 1))⟩], 0, m⟩) := by
  refine ⟨copyFrom_copyCalls_le env prior m m 0, ?_, ?_⟩
  · intro a ha hbefore hok
    have h := copyFrom_first_success env prior m a ha hok hbefore m 0
      (by omega) (Nat.zero_le a)
    simpa using h
  · intro hm hfail
    exact copyFrom_all_fail env prior m hfail m 0 (by omega) hm

/-- Claim C8, witness: with success on attempt 2 the loop stops after three
calls and records DONE with retries 2; with every attempt failing and a
prior record of 1 retry, five calls are made and FAILED with retries 2 and
the last error is recorded. -/
theorem copy_loop_semantics_witness :
    copyLoop envThirdTry none MAX_RETRIES =
      ⟨Outcome.copied, [⟨Status.done, 2, none⟩], 0, 3⟩ ∧
    copyLoop envAlwaysFails (some ⟨Status.failed, 1, some "e"⟩) MAX_RETRIES =
      ⟨Outcome.failed "copy failed",
        [⟨Status.failed, 2, some "copy failed"⟩], 0, 5⟩ := by
  constructor
  · exact (copy_loop_semantics envThirdTry MAX_RETRIES none).2.1 2
      (by decide) (by decide) (by decide)
  · exact (copy_loop_semantics envAlwaysFails MAX_RETRIES
      (some ⟨Status.failed, 1, some "e"⟩)).2.2 (by decide) (by decide)

end BulkSync

namespace BulkSync

/-- Claim C9: for every object name and every setting of the destination prefix,
the destination object name computed by the destination prober equals the one
computed by the copy invoker, and both equal the spec's formula (prefix ++
name when a prefix is set, the name unchanged otherwise), so the existence
check and the copy always target the same destination key. -/
theorem probe_and_copy_target_same_dest_name (dp : Option String)
    (objectName : String) :
    probe_dest_obj_name dp objectName = copy_dest_obj_name dp objectName ∧
    copy_dest_obj_name dp objectName = spec_dest_name dp objectName := by
  refine ⟨rfl, ?_⟩
  cases dp with
  | none => rfl
  | some p =>
    by_cases hp : p = ""
    · subst hp
      simp [copy_dest_obj_name, spec_dest_name, pyTruthy]
    · simp [copy_dest_obj_name, spec_dest_name, pyTruthy, hp]

end BulkSync

namespace BulkSync

/-- Claim C2, counterexample: with `MAX_RETRIES = 5`, two runs of an object
whose probe reports it absent and whose every copy attempt fails make 10
cumulative copy calls — more than `MAX_RETRIES` — while the stored record is
FAILED with only 2 retries, far from the exhaustion threshold, so the object
is still not classified FAILED-exhausted. -/
theorem retry_bound_counterexample :
    MAX_RETRIES <
      (runTrace MAX_RETRIES [envAlwaysFails, envAlwaysFails] none).2 ∧
    recStatus (runTrace MAX_RETRIES [envAlwaysFails, envAlwaysFails] none).1 =
      some Status.failed ∧
    recRetries (runTrace MAX_RETRIES [envAlwaysFails, envAlwaysFails] none).1 <
      MAX_RETRIES := by
  decide

/-- Claim C2, amended: for an object that never succeeds, the cumulative
number of copy calls across all runs (each starting from the record the
previous run persisted, beginning with no record) never exceeds
`MAX_RETRIES * MAX_RETRIES`; and once its record is FAILED with retries at
least `MAX_RETRIES` the object is skipped as exhausted, with no probe, no
copy call and no state change. -/
theorem cumulative_copy_calls_bounded (m : Nat) (envs : List Env)
    (hm : 0 < m) (hns : ∀ e, e ∈ envs → neverSucceeds m e) :
    (runTrace m envs none).2 ≤ m * m ∧
    (∀ e r, recStatus r = some Status.failed → m ≤ recRetries r →
      process_object e m r = ⟨Outcome.skippedExhausted, [], 0, 0⟩) := by
  constructor
  · have h := runTrace_calls_bound m hm envs hns none
      (by simp [recStatus]) (Nat.zero_le m)
    simpa [recRetries] using h
  · intro e r h1 h2
    have hd : ¬recStatus r = some Status.done := by simp [h1]
    simp [process_object, hd, h1, h2]

/-- Claim C2 (amended), witness. -/
theorem cumulative_copy_calls_bounded_witness :
    (runTrace MAX_RETRIES [envAlwaysFails, envAlwaysFails] none).2 ≤
      MAX_RETRIES * MAX_RETRIES ∧
    process_object envAlwaysFails MAX_RETRIES
        (some ⟨Status.failed, 5, some "e"⟩) =
      ⟨Outcome.skippedExhausted, [], 0, 0⟩ := by
  constructor
  · exact (cumulative_copy_calls_bounded MAX_RETRIES
      [envAlwaysFails, envAlwaysFails] (by decide) (by decide)).1
  · exact (cumulative_copy_calls_bounded MAX_RETRIES
      [envAlwaysFails, envAlwaysFails] (by decide) (by decide)).2
      envAlwaysFails (some ⟨Status.failed, 5, some "e"⟩) (by decide) (by decide)

/-- Claim C4, counterexample: one object, destination never holds it, every
copy attempt fails. The first run leaves it FAILED with retries 1; the
second run, against the unchanged source and destination and the state the
first run persisted, re-probes and makes 5 further copy calls — not zero. -/
theorem second_run_zero_copies_counterexample :
    (runAll envBadWorld MAX_RETRIES ["x"]
        (runAll envBadWorld MAX_RETRIES ["x"] []).state).copyCalls = 5 ∧
    ¬((runAll envBadWorld MAX_RETRIES ["x"]
        (runAll envBadWorld MAX_RETRIES ["x"] []).state).copyCalls = 0) := by
  decide

/-- Claim C4, amended: a run over a state in which every enumerated object
already has a permanent record (DONE, or FAILED with retries ≥ MAX_RETRIES)
performs no probe and no copy call, leaves the state unchanged, and so
reports the same DONE and FAILED counts; an object left FAILED below the
retry threshold is instead re-probed and re-copied by the second run. -/
theorem second_run_noop_when_settled (env : String → Env) (m : Nat) :
    ∀ (objs : List String) (s : SyncState),
      (∀ n, n ∈ objs → skipRecord m (alistGet s n)) →
      runAll env m objs s = ⟨s, 0, 0⟩ ∧
      doneCount (runAll env m objs s).state = doneCount s ∧
      failedCount (runAll env m objs s).state = failedCount s := by
  intro objs
  induction objs with
  | nil => intro s _; exact ⟨rfl, rfl, rfl⟩
  | cons k rest ih =>
    intro s h
    have hk := process_object_skip_effects (env k) m (alistGet s k)
      (h k (by simp))
    have hw : applyWrites s k (process_object (env k) m (alistGet s k)).writes
        = s := by
      rw [hk.1]
      rfl
    have htail := ih s (fun n hn => h n (by simp [hn]))
    have hmain : runAll env m (k :: rest) s = ⟨s, 0, 0⟩ := by
      simp only [runAll]
      rw [hw, htail.1, hk.2.1, hk.2.2]
      simp
    exact ⟨hmain, by rw [hmain], by rw [hmain]⟩

/-- Claim C4 (amended), witness. -/
theorem second_run_noop_when_settled_witness :
    runAll envBadWorld MAX_RETRIES ["a", "b"] settledState =
      ⟨settledState, 0, 0⟩ ∧
    doneCount (runAll envBadWorld MAX_RETRIES ["a", "b"] settledState).state =
      doneCount settledState := by
  have h := second_run_noop_when_settled envBadWorld MAX_RETRIES ["a", "b"]
    settledState (by decide)
  exact ⟨h.1, h.2.1⟩

/-- Claim C10: the final DONE and FAILED counts scan every record of the
in-memory state, including records loaded from a prior run for objects
absent from the current enumeration (such records are untouched by the
run), so the reported counts can exceed the number of objects processed:
here a run over one object reports DONE + FAILED = 3. -/
theorem summary_counts_include_stale_records :
    (∀ (env : String → Env) (m : Nat) (objs : List String) (s : SyncState)
        (n : String), ¬n ∈ objs →
        alistGet (runAll env m objs s).state n = alistGet s n) ∧
    List.length ["x"] <
      doneCount (runAll envDestHas MAX_RETRIES ["x"] staleLoadedState).state +
      failedCount
        (runAll envDestHas MAX_RETRIES ["x"] staleLoadedState).state := by
  constructor
  · intro env m objs s n h
    exact runAll_stale_key env m objs s n h
  · decide

/-- Claim C10, witness. -/
theorem summary_counts_include_stale_records_witness :
    alistGet (runAll envDestHas MAX_RETRIES ["x"] staleLoadedState).state
        "old-failed" =
      alistGet staleLoadedState "old-failed" :=
  summary_counts_include_stale_records.1 envDestHas MAX_RETRIES ["x"]
    staleLoadedState "old-failed" (by decide)

/-- Claim C6: `save_state` writes the serialization to a temporary path in
the same directory as the state file and then renames it over the final
path; the rename is the only operation touching the final path, every
proper prefix of the operation sequence (a crash before the rename) leaves
the previous state file contents intact, and the complete sequence replaces
the file with the new serialization. -/
theorem save_state_atomic (fs : Fs) (serialized : String) :
    dirOf (STATE_FILE ++ ".tmp") = dirOf STATE_FILE ∧
    (∀ op, op ∈ save_state_ops serialized → touches op STATE_FILE = true →
      op = FsOp.rename (STATE_FILE ++ ".tmp") STATE_FILE) ∧
    (∀ k, k < (save_state_ops serialized).length →
      alistGet (applyOps fs (List.take k (save_state_ops serialized)))
          STATE_FILE =
        alistGet fs STATE_FILE) ∧
    alistGet (applyOps fs (save_state_ops serialized)) STATE_FILE =
      some serialized := by
  refine ⟨by decide, ?_, ?_, ?_⟩
  · intro op hop ht
    rcases (by simpa [save_state_ops] using hop :
        op = FsOp.write (STATE_FILE ++ ".tmp") serialized ∨
        op = FsOp.rename (STATE_FILE ++ ".tmp") STATE_FILE) with h | h
    · subst h
      have htf : touches (FsOp.write (STATE_FILE ++ ".tmp") serialized)
          STATE_FILE = false := by
        show ((STATE_FILE ++ ".tmp") == STATE_FILE) = false
        decide
      rw [htf] at ht
      exact Bool.noConfusion ht
    · exact h
  · intro k hk
    simp only [save_state_ops, List.length_cons, List.length_nil] at hk
    match k with
    | 0 => rfl
    | 1 =>
      exact alistGet_set_ne fs (STATE_FILE ++ ".tmp") STATE_FILE serialized
        (by decide)
    | (n + 2) => omega
  · have h1 : alistGet (alistSet fs (STATE_FILE ++ ".tmp") serialized)
        (STATE_FILE ++ ".tmp") = some serialized :=
      alistGet_set_eq fs (STATE_FILE ++ ".tmp") serialized
    show alistGet (applyOp (alistSet fs (STATE_FILE ++ ".tmp") serialized)
      (FsOp.rename (STATE_FILE ++ ".tmp") STATE_FILE)) STATE_FILE =
        some serialized
    simp only [applyOp, h1]
    exact alistGet_set_eq _ _ _

/-- Claim C6, witness: with a previous good state file present, the crash
prefix keeps its old contents and the full save replaces them. -/
theorem save_state_atomic_witness :
    alistGet (applyOps [(STATE_FILE, "old")]
        (List.take 1 (save_state_ops "new"))) STATE_FILE = some "old" ∧
    alistGet (applyOps [(STATE_FILE, "old")] (save_state_ops "new"))
        STATE_FILE = some "new" := by
  constructor
  · have h := (save_state_atomic [(STATE_FILE, "old")] "new").2.2.1 1
      (by decide)
    rw [h]
    decide
  · exact (save_state_atomic [(STATE_FILE, "old")] "new").2.2.2

/-- Claim C7: `load_state` returns the empty mapping when the state-file
path does not exist, the persisted mapping when the path exists and the
decoder accepts its contents, and fails with a parse error when the path
exists but its contents are not a valid serialized mapping. -/
theorem load_state_cases (decode : String → Option SyncState) (fs : Fs) :
    (alistGet fs STATE_FILE = none → load_state decode fs = Except.ok []) ∧
    (∀ c mp, alistGet fs STATE_FILE = some c → decode c = some mp →
      load_state decode fs = Except.ok mp) ∧
    (∀ c, alistGet fs STATE_FILE = some c → decode c = none →
      load_state decode fs = Except.error "ParseError") := by
  refine ⟨?_, ?_, ?_⟩
  · intro h
    simp [load_state, h]
  · intro c mp h1 h2
    simp [load_state, h1, h2]
  · intro c h1 h2
    simp [load_state, h1, h2]

/-- Claim C7, witness: a missing file loads as the empty mapping, a valid
file loads as the persisted mapping, a corrupt file raises a parse error. -/
theorem load_state_cases_witness :
    load_state decodeOneRecord [] = Except.ok [] ∧
    load_state decodeOneRecord [(STATE_FILE, "serialized")] =
      Except.ok [("a", ⟨Status.done, 0, none⟩)] ∧
    load_state decodeOneRecord [(STATE_FILE, "garbage")] =
      Except.error "ParseError" := by
  refine ⟨?_, ?_, ?_⟩
  · exact (load_state_cases decodeOneRecord []).1 rfl
  · exact (load_state_cases decodeOneRecord [(STATE_FILE, "serialized")]).2.1
      "serialized" [("a", ⟨Status.done, 0, none⟩)] (by decide) (by decide)
  · exact (load_state_cases decodeOneRecord [(STATE_FILE, "garbage")]).2.2
      "garbage" (by decide) (by decide)

end BulkSync
